import Mathlib

/-!
Shallow embedding of `src/backend_code.py` (demand-flow-navigator), service layer.

Modelling conventions:
* The SQLite session/tables become a pure `Store` (two lists plus the demand
  auto-increment counter).  `db.query(...).filter(col == x).first()` becomes
  `List.find?`, `db.add` appends, `db.delete` erases the first matching row,
  and in-place `setattr` mutation becomes replacing the first matching row.
* `datetime.datetime.now().strftime('%Y%m%d%H%M%S')` and `.date()` are external
  inputs; each operation takes the formatted timestamp string(s) `ts` and the
  current date `today` as explicit parameters (`clone_demand` takes `ts` per
  loop iteration since the source calls `now()` inside the loop).
* `datetime.datetime.strptime(s, "%Y-%m-%d").date()` is the external library
  parser; operations take `parseDate : String → Option Date`, `none` meaning
  the `ValueError` raise.  Dates themselves are abstract (`Date := Nat`).
* Pydantic `dict(exclude_unset=True)` partial updates: an update field is
  `none` when unset.  For fields whose stored column is nullable (dates,
  comment, revised, resource_mapped) the update value is `Option (Option _)`:
  `some none` is an explicitly-null JSON field (present, clears the column),
  `some (some v)` a present value.
* A Python `return None` / `raise HTTPException(404)` both become
  `AppError.notFound`; `ValueError` from date parsing (and the store's
  commit-time type failure on a non-date value) become
  `AppError.validationError`.  Every mutating operation returns the error or
  result together with the resulting store, so "store unchanged on failure"
  is an explicit, provable statement.
* `accounts.id` is the table's primary key: inserting a row whose id equals a
  stored account's id makes `db.commit()` raise `IntegrityError` and roll the
  insert back.  `create_account` models this as `AppError.storeError` with the
  store unchanged.
* `column.contains(query)` compiles to `column LIKE '%' || query || '%'` with
  no escaping, executed by SQLite's default `LIKE`: `%` in the query matches
  any character sequence, `_` matches any single character, and ASCII letters
  match case-insensitively (`likeCharEq`, folding exactly `A`-`Z`, as Lean's
  `Char.toLower` does).  `likeMatch` is the executable matcher, `LikeSem` its
  declarative reading; `OccursIn`/`litSubstr` are the spec's words (literal
  case-sensitive substring), kept for comparison against the code's semantics.
-/

namespace DemandFlow

/-- Calendar dates are abstract; the embedding never inspects them. -/
abbrev Date := Nat

/-- Row of the `accounts` table (`AccountModel` in the source). -/
structure AccountModel where
  id : String
  client : String
  project : String
  vertical : String
  geo : String
  start_month : String
  revised_start_date : Option Date
  planned_start_date : Option Date
  planned_end_date : Option Date
  probability : Int
  opportunity_status : String
  sow_status : String
  project_status : String
  client_partner : String
  proposal_anchor : String
  delivery_partner : String
  comment : Option String
  last_updated_by : String
  updated_on : Date
  added_by : String
  added_on : Date
deriving DecidableEq

/-- Row of the `demands` table (`DemandModel` in the source). -/
structure DemandModel where
  sno : Nat
  id : String
  account_id : String
  project : String
  role : String
  role_code : String
  location : String
  revised : Option String
  original_start_date : Option Date
  allocation_end_date : Option Date
  allocation_percentage : Int
  probability : Int
  status : String
  resource_mapped : Option String
  comment : Option String
  last_updated_by : String
  updated_on : Date
  added_by : String
  added_on : Date
  start_month : String
deriving DecidableEq

/-- The persistent state: both tables plus the `sno` auto-increment counter. -/
structure Store where
  accounts : List AccountModel
  demands : List DemandModel
  nextSno : Nat
deriving DecidableEq

/-- The empty database, as created by `Base.metadata.create_all`. -/
def emptyStore : Store := { accounts := [], demands := [], nextSno := 1 }

/-- Business-error taxonomy surfaced by the services, plus the storage
layer's own constraint failure (`IntegrityError` at commit), which the spec
keeps distinct from the business errors. -/
inductive AppError where
  | notFound
  | validationError
  | storeError
deriving DecidableEq

/-- `AccountCreate` input schema (all business fields, no id/audit). -/
structure AccountCreate where
  client : String
  project : String
  vertical : String
  geo : String
  start_month : String
  revised_start_date : Option String := none
  planned_start_date : Option String := none
  planned_end_date : Option String := none
  probability : Int
  opportunity_status : String
  sow_status : String
  project_status : String
  client_partner : String
  proposal_anchor : String
  delivery_partner : String
  comment : Option String := none
deriving DecidableEq

/-- `AccountUpdate` partial-update schema: `none` = field unset. -/
structure AccountUpdate where
  client : Option String := none
  project : Option String := none
  vertical : Option String := none
  geo : Option String := none
  start_month : Option String := none
  revised_start_date : Option (Option String) := none
  planned_start_date : Option (Option String) := none
  planned_end_date : Option (Option String) := none
  probability : Option Int := none
  opportunity_status : Option String := none
  sow_status : Option String := none
  project_status : Option String := none
  client_partner : Option String := none
  proposal_anchor : Option String := none
  delivery_partner : Option String := none
  comment : Option (Option String) := none
deriving DecidableEq

/-- `DemandCreate` input schema. -/
structure DemandCreate where
  account_id : String
  project : String
  role : String
  role_code : String
  location : String
  revised : Option String := none
  original_start_date : Option String := none
  allocation_end_date : Option String := none
  allocation_percentage : Int
  probability : Int
  status : String
  resource_mapped : Option String := none
  comment : Option String := none
  start_month : String
deriving DecidableEq

/-- `DemandUpdate` partial-update schema: `none` = field unset. -/
structure DemandUpdate where
  account_id : Option String := none
  project : Option String := none
  role : Option String := none
  role_code : Option String := none
  location : Option String := none
  revised : Option (Option String) := none
  original_start_date : Option (Option String) := none
  allocation_end_date : Option (Option String) := none
  allocation_percentage : Option Int := none
  probability : Option Int := none
  status : Option String := none
  resource_mapped : Option (Option String) := none
  comment : Option (Option String) := none
  start_month : Option String := none
deriving DecidableEq

/-- Replace the first element satisfying `p` by `b` (models in-place `setattr`
mutation of the row object found by `.first()`). -/
def replaceFirst (l : List α) (p : α → Bool) (b : α) : List α :=
  match l with
  | [] => []
  | x :: xs => if p x then b :: xs else x :: replaceFirst xs p b

/-- Create-path date handling: `if input.field: strptime(...)` — `None` and
the falsy empty string leave the column `NULL`; a non-empty string is parsed,
a parse failure raising `ValueError`. -/
def optParse (parseDate : String → Option Date) : Option String → Except AppError (Option Date)
  | none => .ok none
  | some s =>
    if s = "" then .ok none
    else
      match parseDate s with
      | some d => .ok (some d)
      | none => .error .validationError

/-- Update-path date handling for one column, mirroring
`if k in update_data and update_data[k]: parse` followed by `setattr`:
unset keeps the old value, an explicit null clears the column, a non-empty
string is parsed (`ValueError` on failure).  A present empty string skips the
parse guard and then fails the store's type coercion at commit; both failure
paths are `validationError`. -/
def convDate (parseDate : String → Option Date) (old : Option Date) :
    Option (Option String) → Except AppError (Option Date)
  | none => .ok old
  | some none => .ok none
  | some (some s) =>
    if s = "" then .error .validationError
    else
      match parseDate s with
      | some d => .ok (some d)
      | none => .error .validationError

/-- `AccountService.get_account_by_id`. -/
def get_account_by_id (db : Store) (account_id : String) : Option AccountModel :=
  db.accounts.find? (fun a => a.id == account_id)

/-- `AccountService.get_all_accounts`. -/
def get_all_accounts (db : Store) : List AccountModel :=
  db.accounts

/-- `AccountService.create_account`: the generated id is
`"ACC-" ++ ts` where `ts` is `now().strftime('%Y%m%d%H%M%S')`; date strings
are parsed first (`ValueError`), then `db.commit()` enforces the `accounts.id`
primary key — a duplicate id raises `IntegrityError`, persisting and returning
nothing. -/
def create_account (db : Store) (input : AccountCreate) (user_id : String)
    (ts : String) (today : Date) (parseDate : String → Option Date) :
    Except AppError AccountModel × Store :=
  let new_id := "ACC-" ++ ts
  match optParse parseDate input.revised_start_date,
        optParse parseDate input.planned_start_date,
        optParse parseDate input.planned_end_date with
  | .ok rsd, .ok psd, .ok ped =>
    let account : AccountModel :=
      { id := new_id
        client := input.client
        project := input.project
        vertical := input.vertical
        geo := input.geo
        start_month := input.start_month
        revised_start_date := rsd
        planned_start_date := psd
        planned_end_date := ped
        probability := input.probability
        opportunity_status := input.opportunity_status
        sow_status := input.sow_status
        project_status := input.project_status
        client_partner := input.client_partner
        proposal_anchor := input.proposal_anchor
        delivery_partner := input.delivery_partner
        comment := input.comment
        last_updated_by := user_id
        updated_on := today
        added_by := user_id
        added_on := today }
    if db.accounts.any (fun x => x.id == new_id) then
      (.error .storeError, db)
    else
      (.ok account, { db with accounts := db.accounts ++ [account] })
  | _, _, _ => (.error .validationError, db)

/-- `AccountService.update_account`: find, apply the present fields, always
refresh `last_updated_by`/`updated_on`. -/
def update_account (db : Store) (account_id : String) (u : AccountUpdate)
    (user_id : String) (today : Date) (parseDate : String → Option Date) :
    Except AppError AccountModel × Store :=
  match db.accounts.find? (fun a => a.id == account_id) with
  | none => (.error .notFound, db)
  | some a =>
    match convDate parseDate a.revised_start_date u.revised_start_date,
          convDate parseDate a.planned_start_date u.planned_start_date,
          convDate parseDate a.planned_end_date u.planned_end_date with
    | .ok rsd, .ok psd, .ok ped =>
      let a2 : AccountModel :=
        { id := a.id
          client := u.client.getD a.client
          project := u.project.getD a.project
          vertical := u.vertical.getD a.vertical
          geo := u.geo.getD a.geo
          start_month := u.start_month.getD a.start_month
          revised_start_date := rsd
          planned_start_date := psd
          planned_end_date := ped
          probability := u.probability.getD a.probability
          opportunity_status := u.opportunity_status.getD a.opportunity_status
          sow_status := u.sow_status.getD a.sow_status
          project_status := u.project_status.getD a.project_status
          client_partner := u.client_partner.getD a.client_partner
          proposal_anchor := u.proposal_anchor.getD a.proposal_anchor
          delivery_partner := u.delivery_partner.getD a.delivery_partner
          comment := u.comment.getD a.comment
          last_updated_by := user_id
          updated_on := today
          added_by := a.added_by
          added_on := a.added_on }
      (.ok a2, { db with accounts := replaceFirst db.accounts (fun x => x.id == account_id) a2 })
    | _, _, _ => (.error .validationError, db)

/-- `AccountService.delete_account`: refuse when absent or when any demand
still references the account; otherwise remove the row. -/
def delete_account (db : Store) (account_id : String) : Bool × Store :=
  match db.accounts.find? (fun a => a.id == account_id) with
  | none => (false, db)
  | some _ =>
    if (db.demands.filter (fun d => d.account_id == account_id)).length > 0 then
      (false, db)
    else
      (true, { db with accounts := db.accounts.eraseP (fun a => a.id == account_id) })

/-- `DemandService.get_demand_by_id`. -/
def get_demand_by_id (db : Store) (demand_id : String) : Option DemandModel :=
  db.demands.find? (fun d => d.id == demand_id)

/-- `DemandService.get_all_demands`. -/
def get_all_demands (db : Store) : List DemandModel :=
  db.demands

/-- `DemandService.get_demands_by_account`. -/
def get_demands_by_account (db : Store) (account_id : String) : List DemandModel :=
  db.demands.filter (fun d => d.account_id == account_id)

/-- `DemandService.create_demand`: referenced account must exist, id is
`"DEM-" ++ ts`, `sno` comes from the auto-increment counter. -/
def create_demand (db : Store) (input : DemandCreate) (user_id : String)
    (ts : String) (today : Date) (parseDate : String → Option Date) :
    Except AppError DemandModel × Store :=
  match db.accounts.find? (fun a => a.id == input.account_id) with
  | none => (.error .notFound, db)
  | some _ =>
    match optParse parseDate input.original_start_date,
          optParse parseDate input.allocation_end_date with
    | .ok os, .ok ae =>
      let demand : DemandModel :=
        { sno := db.nextSno
          id := "DEM-" ++ ts
          account_id := input.account_id
          project := input.project
          role := input.role
          role_code := input.role_code
          location := input.location
          revised := input.revised
          original_start_date := os
          allocation_end_date := ae
          allocation_percentage := input.allocation_percentage
          probability := input.probability
          status := input.status
          resource_mapped := input.resource_mapped
          comment := input.comment
          last_updated_by := user_id
          updated_on := today
          added_by := user_id
          added_on := today
          start_month := input.start_month }
      (.ok demand, { db with demands := db.demands ++ [demand], nextSno := db.nextSno + 1 })
    | _, _ => (.error .validationError, db)

/-- `DemandService.update_demand`: find the demand; when the partial input
carries `account_id` the referenced account must exist (checked before any
field is applied); then apply the present fields and refresh the audit pair. -/
def update_demand (db : Store) (demand_id : String) (u : DemandUpdate)
    (user_id : String) (today : Date) (parseDate : String → Option Date) :
    Except AppError DemandModel × Store :=
  match db.demands.find? (fun d => d.id == demand_id) with
  | none => (.error .notFound, db)
  | some d =>
    match u.account_id with
    | some aid =>
      match db.accounts.find? (fun a => a.id == aid) with
      | none => (.error .notFound, db)
      | some _ => update_demand_apply db demand_id d u user_id today parseDate
    | none => update_demand_apply db demand_id d u user_id today parseDate
where
  /-- The post-validation tail of `update_demand`: date conversion, the
  `setattr` loop and the audit refresh. -/
  update_demand_apply (db : Store) (demand_id : String) (d : DemandModel)
      (u : DemandUpdate) (user_id : String) (today : Date)
      (parseDate : String → Option Date) : Except AppError DemandModel × Store :=
    match convDate parseDate d.original_start_date u.original_start_date,
          convDate parseDate d.allocation_end_date u.allocation_end_date with
    | .ok os, .ok ae =>
      let d2 : DemandModel :=
        { sno := d.sno
          id := d.id
          account_id := u.account_id.getD d.account_id
          project := u.project.getD d.project
          role := u.role.getD d.role
          role_code := u.role_code.getD d.role_code
          location := u.location.getD d.location
          revised := u.revised.getD d.revised
          original_start_date := os
          allocation_end_date := ae
          allocation_percentage := u.allocation_percentage.getD d.allocation_percentage
          probability := u.probability.getD d.probability
          status := u.status.getD d.status
          resource_mapped := u.resource_mapped.getD d.resource_mapped
          comment := u.comment.getD d.comment
          last_updated_by := user_id
          updated_on := today
          added_by := d.added_by
          added_on := d.added_on
          start_month := u.start_month.getD d.start_month }
      (.ok d2, { db with demands := replaceFirst db.demands (fun x => x.id == demand_id) d2 })
    | _, _ => (.error .validationError, db)

/-- `DemandService.delete_demand`: unconditional delete once found. -/
def delete_demand (db : Store) (demand_id : String) : Bool × Store :=
  match db.demands.find? (fun d => d.id == demand_id) with
  | none => (false, db)
  | some _ => (true, { db with demands := db.demands.eraseP (fun d => d.id == demand_id) })

/-- `DemandService.clone_demand`: `count` copies of the source, clone `i`
getting id `"DEM-CLONE-" ++ ts i ++ "-" ++ i` (the source re-reads the clock
inside the loop, hence `ts : Nat → String`), business fields copied from the
source, audit fields stamped with `user_id`/`today`. -/
def clone_demand (db : Store) (demand_id : String) (count : Nat) (user_id : String)
    (ts : Nat → String) (today : Date) : Except AppError (List DemandModel) × Store :=
  match db.demands.find? (fun d => d.id == demand_id) with
  | none => (.error .notFound, db)
  | some src =>
    let mkClone : Nat → DemandModel := fun i =>
      { sno := db.nextSno + i
        id := "DEM-CLONE-" ++ ts i ++ "-" ++ Nat.repr i
        account_id := src.account_id
        project := src.project
        role := src.role
        role_code := src.role_code
        location := src.location
        revised := src.revised
        original_start_date := src.original_start_date
        allocation_end_date := src.allocation_end_date
        allocation_percentage := src.allocation_percentage
        probability := src.probability
        status := src.status
        resource_mapped := src.resource_mapped
        comment := src.comment
        last_updated_by := user_id
        updated_on := today
        added_by := user_id
        added_on := today
        start_month := src.start_month }
    let clones := (List.range count).map mkClone
    (.ok clones, { db with demands := db.demands ++ clones, nextSno := db.nextSno + count })

/-- Does the pattern occur at the head of `s`? -/
def matchesAt : List Char → List Char → Bool
  | [], _ => true
  | _ :: _, [] => false
  | p :: ps, c :: cs => p == c && matchesAt ps cs

/-- Unanchored occurrence of `pat` anywhere in `s`. -/
def listContains : List Char → List Char → Bool
  | [], pat => matchesAt pat []
  | c :: rest, pat => matchesAt pat (c :: rest) || listContains rest pat

/-- Decision procedure for the spec's claimed semantics — literal,
case-sensitive, unanchored substring occurrence of `query` in `s`.  This is
NOT what the code executes (see `sqlContains`); it is kept to state and refute
the claim's wording. -/
def litSubstr (s query : String) : Bool :=
  listContains s.data query.data

/-- SQLite's default `LIKE` character comparison: ASCII letters `A`-`Z` fold
to lower case (exactly what `Char.toLower` folds), all other characters match
themselves. -/
def likeCharEq (p c : Char) : Bool :=
  p.toLower == c.toLower

/-- SQLite `LIKE` pattern matching, pattern first: `%` matches any character
sequence, `_` any single character, anything else one character via
`likeCharEq`. -/
def likeMatch : List Char → List Char → Bool
  | [], s => s.isEmpty
  | p :: ps, s =>
    if p = '%' then s.tails.any (fun t => likeMatch ps t)
    else
      match s with
      | [] => false
      | c :: cs => (if p = '_' then true else likeCharEq p c) && likeMatch ps cs

/-- Declarative reading of SQLite `LIKE` matching, for the amended search
characterization. -/
def LikeSem : List Char → List Char → Prop
  | [], s => s = []
  | p :: ps, s =>
    if p = '%' then ∃ s1 s2, s = s1 ++ s2 ∧ LikeSem ps s2
    else ∃ c cs, s = c :: cs ∧ (p = '_' ∨ likeCharEq p c = true) ∧ LikeSem ps cs

/-- `column.contains(query)` as the code executes it: SQLAlchemy emits
`column LIKE '%' || query || '%'` with no escaping, evaluated by SQLite's
default `LIKE`. -/
def sqlContains (s query : String) : Bool :=
  likeMatch ("%" ++ query ++ "%").data s.data

/-- Search results are a list from one of the two tables. -/
inductive SearchResult where
  | accounts (xs : List AccountModel)
  | demands (xs : List DemandModel)
deriving DecidableEq

/-- `DashboardService.search`: OR of `column.contains(query)` (SQL `LIKE`)
tests over four columns per entity; any other entity raises `ValueError`. -/
def search (db : Store) (query : String) (entity : String) : Except AppError SearchResult :=
  if entity = "accounts" then
    .ok (.accounts (db.accounts.filter (fun a =>
      sqlContains a.client query ||
      sqlContains a.project query ||
      sqlContains a.vertical query ||
      sqlContains a.opportunity_status query)))
  else if entity = "demands" then
    .ok (.demands (db.demands.filter (fun d =>
      sqlContains d.role query ||
      sqlContains d.project query ||
      sqlContains d.location query ||
      sqlContains d.status query)))
  else
    .error .validationError

/-- Referential integrity: every demand's `account_id` is the id of some
account in the store. -/
def RefIntegrity (db : Store) : Prop :=
  ∀ d ∈ db.demands, d.account_id ∈ db.accounts.map (fun a => a.id)

/-- Store states reachable from the empty database through the service
operations, over arbitrary inputs, actors, clocks and date parsers. -/
inductive Reachable : Store → Prop where
  | empty : Reachable emptyStore
  | stepCreateAccount (db : Store) (input : AccountCreate) (user_id ts : String)
      (today : Date) (parseDate : String → Option Date) :
      Reachable db → Reachable (create_account db input user_id ts today parseDate).2
  | stepUpdateAccount (db : Store) (account_id : String) (u : AccountUpdate)
      (user_id : String) (today : Date) (parseDate : String → Option Date) :
      Reachable db → Reachable (update_account db account_id u user_id today parseDate).2
  | stepDeleteAccount (db : Store) (account_id : String) :
      Reachable db → Reachable (delete_account db account_id).2
  | stepCreateDemand (db : Store) (input : DemandCreate) (user_id ts : String)
      (today : Date) (parseDate : String → Option Date) :
      Reachable db → Reachable (create_demand db input user_id ts today parseDate).2
  | stepUpdateDemand (db : Store) (demand_id : String) (u : DemandUpdate)
      (user_id : String) (today : Date) (parseDate : String → Option Date) :
      Reachable db → Reachable (update_demand db demand_id u user_id today parseDate).2
  | stepDeleteDemand (db : Store) (demand_id : String) :
      Reachable db → Reachable (delete_demand db demand_id).2
  | stepCloneDemand (db : Store) (demand_id : String) (count : Nat) (user_id : String)
      (ts : Nat → String) (today : Date) :
      Reachable db → Reachable (clone_demand db demand_id count user_id ts today).2

/-- Occurrence of `q` as an unanchored, case-sensitive substring of `s`. -/
def OccursIn (q s : String) : Prop :=
  ∃ u v : List Char, s.data = u ++ q.data ++ v

/-- Sample account-creation input used by concrete witnesses. -/
def accInputA : AccountCreate :=
  { client := "Acme", project := "Alpha", vertical := "Retail", geo := "NA",
    start_month := "Jan", probability := 50, opportunity_status := "Open",
    sow_status := "Signed", project_status := "Green", client_partner := "cp",
    proposal_anchor := "pa", delivery_partner := "dp" }

/-- Sample stored account used by concrete witnesses. -/
def accA : AccountModel :=
  { id := "ACC-20250101120000", client := "Acme", project := "Alpha",
    vertical := "Retail", geo := "NA", start_month := "Jan",
    revised_start_date := none, planned_start_date := some 10,
    planned_end_date := none, probability := 50, opportunity_status := "Open",
    sow_status := "Signed", project_status := "Green", client_partner := "cp",
    proposal_anchor := "pa", delivery_partner := "dp", comment := some "c",
    last_updated_by := "alice", updated_on := 5, added_by := "alice", added_on := 5 }

/-- Sample stored demand (referencing `accA`) used by concrete witnesses. -/
def demA : DemandModel :=
  { sno := 1, id := "DEM-20250101120500", account_id := "ACC-20250101120000",
    project := "Alpha", role := "Engineer", role_code := "E1", location := "NY",
    revised := none, original_start_date := some 11, allocation_end_date := none,
    allocation_percentage := 100, probability := 50, status := "Open",
    resource_mapped := none, comment := none, last_updated_by := "alice",
    updated_on := 6, added_by := "alice", added_on := 6, start_month := "Feb" }

/-- Sample store holding `accA` and `demA`. -/
def storeAB : Store := { accounts := [accA], demands := [demA], nextSno := 2 }

/-- Sample demand-creation input referencing a missing account. -/
def demInputBad : DemandCreate :=
  { account_id := "ACC-missing", project := "P", role := "R", role_code := "RC",
    location := "L", allocation_percentage := 50, probability := 75,
    status := "Open", start_month := "Mar" }

/-- Sample demand partial update pointing `account_id` at a missing account. -/
def demUpdBad : DemandUpdate := { account_id := some "ACC-missing" }

/-- A date parser for witnesses that accepts nothing. -/
def noParse : String → Option Date := fun _ => none

/-- Partial update touching only the comment, for the C5 witness. -/
def accUpdComment : AccountUpdate := { comment := some (some "x") }

/-- Expected result of the C5 witness update. -/
def accAx : AccountModel :=
  { accA with comment := some "x", last_updated_by := "bob", updated_on := 9 }

/-- Expected store after the C5 witness update. -/
def storeABx : Store := { storeAB with accounts := [accAx] }

/-- Partial account update carrying explicitly-null dates, for the C9 witness. -/
def accUpdNullDate : AccountUpdate :=
  { revised_start_date := some none, planned_start_date := some none }

/-- Partial demand update carrying an explicitly-null date, for the C9 witness. -/
def demUpdNullDate : DemandUpdate := { original_start_date := some none }

/-- Expected account after the C9 witness update. -/
def accANull : AccountModel :=
  { accA with
    revised_start_date := none
    planned_start_date := none
    last_updated_by := "bob"
    updated_on := 9 }

/-- Expected store after the C9 witness account update. -/
def storeNullA : Store := { storeAB with accounts := [accANull] }

/-- Expected demand after the C9 witness update. -/
def demANull : DemandModel :=
  { demA with original_start_date := none, last_updated_by := "bob", updated_on := 9 }

/-- Expected store after the C9 witness demand update. -/
def storeNullD : Store := { storeAB with demands := [demANull] }

/-- Account created from `accInputA` at timestamp `20250101130000`, for the C4
witness. -/
def accB : AccountModel :=
  { id := "ACC-20250101130000", client := "Acme", project := "Alpha",
    vertical := "Retail", geo := "NA", start_month := "Jan",
    revised_start_date := none, planned_start_date := none,
    planned_end_date := none, probability := 50, opportunity_status := "Open",
    sow_status := "Signed", project_status := "Green", client_partner := "cp",
    proposal_anchor := "pa", delivery_partner := "dp", comment := none,
    last_updated_by := "bob", updated_on := 9, added_by := "bob", added_on := 9 }

/-- Store after the C4 witness creation. -/
def storeAB2 : Store := { storeAB with accounts := [accA, accB] }

/-- Account whose fields contain `"eng"` only in upper case, for the C8
counterexample. -/
def accENG : AccountModel :=
  { id := "ACC-20250101150000", client := "ENG", project := "Px",
    vertical := "Vx", geo := "NA", start_month := "Jan",
    revised_start_date := none, planned_start_date := none,
    planned_end_date := none, probability := 75, opportunity_status := "Ox",
    sow_status := "Sx", project_status := "Gx", client_partner := "cp",
    proposal_anchor := "pa", delivery_partner := "dp", comment := none,
    last_updated_by := "alice", updated_on := 5, added_by := "alice", added_on := 5 }

/-- Store holding only `accENG`, for the C8 counterexample. -/
def storeENG : Store := { accounts := [accENG], demands := [], nextSno := 1 }

/-- Constant 14-character clock used by the C3 witness. -/
def cloneTs : Nat → String := fun _ => "20250101140000"

/-- First clone produced by the C3 witness call. -/
def demClone0 : DemandModel :=
  { demA with
    sno := 2
    id := "DEM-CLONE-20250101140000-0"
    last_updated_by := "bob"
    updated_on := 9
    added_by := "bob"
    added_on := 9 }

/-- Second clone produced by the C3 witness call. -/
def demClone1 : DemandModel :=
  { demA with
    sno := 3
    id := "DEM-CLONE-20250101140000-1"
    last_updated_by := "bob"
    updated_on := 9
    added_by := "bob"
    added_on := 9 }

/-- Store after the C3 witness clone call. -/
def storeClones : Store :=
  { accounts := [accA], demands := [demA, demClone0, demClone1], nextSno := 4 }

/-! ### Helper lemmas -/

theorem mem_replaceFirst {l : List α} {p : α → Bool} {b y : α}
    (h : y ∈ replaceFirst l p b) : y = b ∨ y ∈ l := by
  induction l with
  | nil => simp [replaceFirst] at h
  | cons x xs ih =>
    simp only [replaceFirst] at h
    by_cases hp : p x
    · rw [if_pos hp] at h
      rcases List.mem_cons.1 h with h | h
      · exact Or.inl h
      · exact Or.inr (List.mem_cons_of_mem _ h)
    · rw [if_neg hp] at h
      rcases List.mem_cons.1 h with h | h
      · exact Or.inr (h ▸ List.mem_cons_self _ _)
      · rcases ih h with h | h
        · exact Or.inl h
        · exact Or.inr (List.mem_cons_of_mem _ h)

theorem map_replaceFirst {l : List α} {p : α → Bool} {b : α} (f : α → β)
    (h : ∀ x ∈ l, p x = true → f b = f x) :
    (replaceFirst l p b).map f = l.map f := by
  induction l with
  | nil => rfl
  | cons x xs ih =>
    simp only [replaceFirst]
    by_cases hp : p x
    · rw [if_pos hp]
      simp [h x (List.mem_cons_self _ _) hp]
    · rw [if_neg hp]
      simp only [List.map_cons]
      rw [ih (fun y hy hpy => h y (List.mem_cons_of_mem _ hy) hpy)]

/-! ### C10: clone with count = 0 -/

/-- C10: calling the demand service's clone directly with `count = 0` on an
existing source demand succeeds, returns the empty list, and leaves the store
unchanged — the route-level `[1,10]` bound is not enforced in the service. -/
theorem clone_demand_zero_count (db : Store) (demand_id user_id : String)
    (ts : Nat → String) (today : Date) (src : DemandModel)
    (h : get_demand_by_id db demand_id = some src) :
    clone_demand db demand_id 0 user_id ts today = (.ok [], db) := by
  obtain ⟨accs, dems, sno⟩ := db
  simp only [get_demand_by_id] at h
  simp [clone_demand, h]

/-- Witness for C10 at a concrete store. -/
theorem clone_demand_zero_count_witness :
    clone_demand storeAB "DEM-20250101120500" 0 "bob" (fun _ => "t") 9 = (.ok [], storeAB) :=
  clone_demand_zero_count storeAB "DEM-20250101120500" "bob" (fun _ => "t") 9 demA (by rfl)

/-! ### C7: demand creation against a missing account -/

/-- C7: creating a demand whose `account_id` matches no stored account fails
with `notFound` and adds no demand row — the store is returned unchanged. -/
theorem create_demand_missing_account (db : Store) (input : DemandCreate)
    (user_id ts : String) (today : Date) (parseDate : String → Option Date)
    (h : ∀ a ∈ db.accounts, a.id ≠ input.account_id) :
    create_demand db input user_id ts today parseDate = (.error .notFound, db) ∧
    (create_demand db input user_id ts today parseDate).2.demands = db.demands := by
  have hf : db.accounts.find? (fun a => a.id == input.account_id) = none := by
    rw [List.find?_eq_none]
    intro x hx
    simpa using h x hx
  have h1 : create_demand db input user_id ts today parseDate = (.error .notFound, db) := by
    unfold create_demand
    rw [hf]
  exact ⟨h1, by rw [h1]⟩

/-- Witness for C7 at a concrete store and input. -/
theorem create_demand_missing_account_witness :
    create_demand storeAB demInputBad "bob" "20250101130000" 9 noParse
      = (.error .notFound, storeAB) ∧
    (create_demand storeAB demInputBad "bob" "20250101130000" 9 noParse).2.demands
      = storeAB.demands :=
  create_demand_missing_account storeAB demInputBad "bob" "20250101130000" 9 noParse
    (by decide)

/-! ### C6: demand update pointing at a missing account -/

/-- C6: updating an existing demand with a partial input whose `account_id`
does not match any stored account fails with `notFound` before applying any
field: the store is returned unchanged and the demand is still retrievable
with all its prior fields. -/
theorem update_demand_bad_account_ref (db : Store) (demand_id : String)
    (u : DemandUpdate) (user_id : String) (today : Date)
    (parseDate : String → Option Date) (d : DemandModel) (aid : String)
    (hd : get_demand_by_id db demand_id = some d)
    (hu : u.account_id = some aid)
    (ha : ∀ a ∈ db.accounts, a.id ≠ aid) :
    update_demand db demand_id u user_id today parseDate = (.error .notFound, db) ∧
    get_demand_by_id (update_demand db demand_id u user_id today parseDate).2 demand_id
      = some d := by
  simp only [get_demand_by_id] at hd
  have hf : db.accounts.find? (fun a => a.id == aid) = none := by
    rw [List.find?_eq_none]
    intro x hx
    simpa using ha x hx
  have h1 : update_demand db demand_id u user_id today parseDate = (.error .notFound, db) := by
    unfold update_demand
    rw [hd, hu]
    simp [hf]
  exact ⟨h1, by rw [h1]; exact hd⟩

/-- Witness for C6 at a concrete store, demand and update. -/
theorem update_demand_bad_account_ref_witness :
    update_demand storeAB "DEM-20250101120500" demUpdBad "bob" 9 noParse
      = (.error .notFound, storeAB) ∧
    get_demand_by_id
      (update_demand storeAB "DEM-20250101120500" demUpdBad "bob" 9 noParse).2
      "DEM-20250101120500" = some demA :=
  update_demand_bad_account_ref storeAB "DEM-20250101120500" demUpdBad "bob" 9 noParse
    demA "ACC-missing" (by rfl) (by rfl) (by decide)

/-! ### C5: partial-update frame property on accounts -/

/-- C5: a partial account update writes only the fields present in the input
and always refreshes `last_updated_by`/`updated_on`; every unset field — in
particular every business field when only `comment` is supplied — keeps its
prior value, and `id`/`added_by`/`added_on` are never touched. -/
theorem update_account_partial_frame (db : Store) (account_id : String)
    (u : AccountUpdate) (user_id : String) (today : Date)
    (parseDate : String → Option Date) (a a2 : AccountModel) (db2 : Store)
    (ha : get_account_by_id db account_id = some a)
    (hupd : update_account db account_id u user_id today parseDate = (.ok a2, db2)) :
    a2.id = a.id ∧
    (u.client = none → a2.client = a.client) ∧
    (u.project = none → a2.project = a.project) ∧
    (u.vertical = none → a2.vertical = a.vertical) ∧
    (u.geo = none → a2.geo = a.geo) ∧
    (u.start_month = none → a2.start_month = a.start_month) ∧
    (u.revised_start_date = none → a2.revised_start_date = a.revised_start_date) ∧
    (u.planned_start_date = none → a2.planned_start_date = a.planned_start_date) ∧
    (u.planned_end_date = none → a2.planned_end_date = a.planned_end_date) ∧
    (u.probability = none → a2.probability = a.probability) ∧
    (u.opportunity_status = none → a2.opportunity_status = a.opportunity_status) ∧
    (u.sow_status = none → a2.sow_status = a.sow_status) ∧
    (u.project_status = none → a2.project_status = a.project_status) ∧
    (u.client_partner = none → a2.client_partner = a.client_partner) ∧
    (u.proposal_anchor = none → a2.proposal_anchor = a.proposal_anchor) ∧
    (u.delivery_partner = none → a2.delivery_partner = a.delivery_partner) ∧
    (u.comment = none → a2.comment = a.comment) ∧
    (∀ s, u.client = some s → a2.client = s) ∧
    (∀ s, u.comment = some s → a2.comment = s) ∧
    a2.added_by = a.added_by ∧ a2.added_on = a.added_on ∧
    a2.last_updated_by = user_id ∧ a2.updated_on = today := by
  simp only [get_account_by_id] at ha
  simp only [update_account, ha] at hupd
  split at hupd
  · rename_i rsd psd ped h1 h2 h3
    rw [Prod.mk.injEq] at hupd
    obtain ⟨hA, hS⟩ := hupd
    injection hA with hA
    subst hA
    exact ⟨rfl,
      fun h => by simp [h], fun h => by simp [h], fun h => by simp [h],
      fun h => by simp [h], fun h => by simp [h],
      fun h => by
        rw [h] at h1; simp only [convDate, Except.ok.injEq] at h1; exact h1.symm,
      fun h => by
        rw [h] at h2; simp only [convDate, Except.ok.injEq] at h2; exact h2.symm,
      fun h => by
        rw [h] at h3; simp only [convDate, Except.ok.injEq] at h3; exact h3.symm,
      fun h => by simp [h], fun h => by simp [h], fun h => by simp [h],
      fun h => by simp [h], fun h => by simp [h], fun h => by simp [h],
      fun h => by simp [h], fun h => by simp [h],
      fun s h => by simp [h], fun s h => by simp [h],
      rfl, rfl, rfl, rfl⟩
  · simp at hupd

/-- Witness for C5: updating only `comment` on a concrete store leaves
`client` and `probability` at their prior values and refreshes the audit pair. -/
theorem update_account_partial_frame_witness :
    accAx.client = accA.client ∧ accAx.probability = accA.probability ∧
    accAx.last_updated_by = "bob" ∧ accAx.updated_on = 9 := by
  have h := update_account_partial_frame storeAB "ACC-20250101120000" accUpdComment "bob" 9
    noParse accA accAx storeABx (by rfl) (by rfl)
  obtain ⟨h_id, hcl, hpr, hv, hg, hsm, hrsd, hpsd, hped, hprob, hopp, hsow, hps,
    hcp, hpa, hdp, hcom, hcls, hcoms, hab, hao, hlub, huo⟩ := h
  exact ⟨hcl rfl, hprob rfl, hlub, huo⟩

/-! ### C9: explicitly-null vs unset optional dates in partial updates -/

theorem update_demand_apply_dates (db : Store) (demand_id : String) (d : DemandModel)
    (u : DemandUpdate) (user_id : String) (today : Date)
    (parseDate : String → Option Date) (d2 : DemandModel) (db2 : Store)
    (h : update_demand.update_demand_apply db demand_id d u user_id today parseDate
      = (.ok d2, db2)) :
    (u.original_start_date = some none → d2.original_start_date = none) ∧
    (u.original_start_date = none → d2.original_start_date = d.original_start_date) ∧
    (u.allocation_end_date = some none → d2.allocation_end_date = none) ∧
    (u.allocation_end_date = none → d2.allocation_end_date = d.allocation_end_date) := by
  simp only [update_demand.update_demand_apply] at h
  split at h
  · rename_i os ae h1 h2
    rw [Prod.mk.injEq] at h
    obtain ⟨hD, hS⟩ := h
    injection hD with hD
    subst hD
    exact ⟨
      fun hz => by
        rw [hz] at h1; simp only [convDate, Except.ok.injEq] at h1; exact h1.symm,
      fun hz => by
        rw [hz] at h1; simp only [convDate, Except.ok.injEq] at h1; exact h1.symm,
      fun hz => by
        rw [hz] at h2; simp only [convDate, Except.ok.injEq] at h2; exact h2.symm,
      fun hz => by
        rw [hz] at h2; simp only [convDate, Except.ok.injEq] at h2; exact h2.symm⟩
  · simp at h

/-- C9: in a partial update (account or demand), an optional date supplied as
an explicit null counts as present and clears the stored date, whereas an
unset date field keeps its prior value — the two behave differently. -/
theorem update_null_date_clears (db : Store) (account_id : String) (u : AccountUpdate)
    (user_id : String) (today : Date) (parseDate : String → Option Date)
    (a a2 : AccountModel) (db2 : Store)
    (db' : Store) (demand_id : String) (v : DemandUpdate) (user_id' : String)
    (today' : Date) (parseDate' : String → Option Date) (d d2 : DemandModel) (db2' : Store)
    (ha : get_account_by_id db account_id = some a)
    (hupd : update_account db account_id u user_id today parseDate = (.ok a2, db2))
    (hd : get_demand_by_id db' demand_id = some d)
    (hupd' : update_demand db' demand_id v user_id' today' parseDate' = (.ok d2, db2')) :
    (u.revised_start_date = some none → a2.revised_start_date = none) ∧
    (u.revised_start_date = none → a2.revised_start_date = a.revised_start_date) ∧
    (v.original_start_date = some none → d2.original_start_date = none) ∧
    (v.original_start_date = none → d2.original_start_date = d.original_start_date) := by
  simp only [get_account_by_id] at ha
  simp only [get_demand_by_id] at hd
  simp only [update_account, ha] at hupd
  have haccount :
      (u.revised_start_date = some none → a2.revised_start_date = none) ∧
      (u.revised_start_date = none → a2.revised_start_date = a.revised_start_date) := by
    split at hupd
    · rename_i rsd psd ped h1 h2 h3
      rw [Prod.mk.injEq] at hupd
      obtain ⟨hA, hS⟩ := hupd
      injection hA with hA
      subst hA
      exact ⟨
        fun hz => by
          rw [hz] at h1; simp only [convDate, Except.ok.injEq] at h1; exact h1.symm,
        fun hz => by
          rw [hz] at h1; simp only [convDate, Except.ok.injEq] at h1; exact h1.symm⟩
    · simp at hupd
  simp only [update_demand, hd] at hupd'
  have hdemand :
      (v.original_start_date = some none → d2.original_start_date = none) ∧
      (v.original_start_date = none → d2.original_start_date = d.original_start_date) := by
    split at hupd'
    · rename_i aid
      split at hupd'
      · simp at hupd'
      · have h := update_demand_apply_dates db' demand_id d v user_id' today' parseDate'
          d2 db2' hupd'
        exact ⟨h.1, h.2.1⟩
    · have h := update_demand_apply_dates db' demand_id d v user_id' today' parseDate'
        d2 db2' hupd'
      exact ⟨h.1, h.2.1⟩
  exact ⟨haccount.1, haccount.2, hdemand.1, hdemand.2⟩

/-- Witness for C9: concrete updates clearing dates that were previously set. -/
theorem update_null_date_clears_witness :
    accANull.revised_start_date = none ∧ demANull.original_start_date = none := by
  have h := update_null_date_clears storeAB "ACC-20250101120000" accUpdNullDate "bob" 9 noParse
    accA accANull storeNullA
    storeAB "DEM-20250101120500" demUpdNullDate "bob" 9 noParse
    demA demANull storeNullD
    (by rfl) (by rfl) (by rfl) (by rfl)
  exact ⟨h.1 rfl, h.2.2.1 rfl⟩

/-! ### C2: account deletion guard -/

/-- C2: over stores whose account ids are distinct (the table's primary key),
`delete_account` reports failure and leaves the store unchanged when the id is
absent or when some demand still references the account; when the account
exists and no demand references it, it succeeds, the account is no longer
retrievable, and all other accounts and all demands survive unchanged. -/
theorem delete_account_spec (db : Store) (account_id : String)
    (hnodup : (db.accounts.map (fun a => a.id)).Nodup) :
    (get_account_by_id db account_id = none →
        delete_account db account_id = (false, db)) ∧
    ((∃ d ∈ db.demands, d.account_id = account_id) →
        delete_account db account_id = (false, db)) ∧
    (get_account_by_id db account_id ≠ none →
      (∀ d ∈ db.demands, d.account_id ≠ account_id) →
        (delete_account db account_id).1 = true ∧
        get_account_by_id (delete_account db account_id).2 account_id = none ∧
        (delete_account db account_id).2.demands = db.demands ∧
        (∀ b, b ∈ (delete_account db account_id).2.accounts ↔
          b ∈ db.accounts ∧ b.id ≠ account_id)) := by
  refine ⟨?_, ?_, ?_⟩
  · intro hnone
    simp only [get_account_by_id] at hnone
    unfold delete_account
    rw [hnone]
  · rintro ⟨d, hd, hdid⟩
    cases hfind : db.accounts.find? (fun a => a.id == account_id) with
    | none => unfold delete_account; rw [hfind]
    | some a =>
      have hmem : d ∈ db.demands.filter (fun x => x.account_id == account_id) :=
        List.mem_filter.2 ⟨hd, by simp [hdid]⟩
      have hpos : 0 < (db.demands.filter (fun x => x.account_id == account_id)).length :=
        List.length_pos.2 (List.ne_nil_of_mem hmem)
      unfold delete_account
      rw [hfind, if_pos hpos]
  · intro hsome hnoref
    simp only [get_account_by_id] at hsome
    obtain ⟨a, hfind⟩ := Option.ne_none_iff_exists'.1 hsome
    have hfil : db.demands.filter (fun x => x.account_id == account_id) = [] := by
      rw [List.filter_eq_nil_iff]
      intro x hx
      simpa using hnoref x hx
    have hdel : delete_account db account_id =
        (true, { db with accounts := db.accounts.eraseP (fun a => a.id == account_id) }) := by
      unfold delete_account
      rw [hfind, hfil]
      simp
    -- every account surviving the erase has a different id
    have herased : ∀ x ∈ db.accounts.eraseP (fun a => a.id == account_id),
        ¬(x.id == account_id) = true := by
      obtain ⟨c, l₁, l₂, hl₁, hpc, hcat, herase⟩ :=
        List.exists_of_eraseP (List.mem_of_find?_eq_some hfind) (List.find?_some hfind)
      have hcid : c.id = account_id := by simpa using hpc
      have hnd : ((l₁ ++ c :: l₂).map (fun a => a.id)).Nodup := hcat ▸ hnodup
      rw [List.map_append, List.map_cons] at hnd
      have hnd2 : ((fun a => a.id) c :: l₂.map (fun a => a.id)).Nodup :=
        hnd.of_append_right
      have hcnot : c.id ∉ l₂.map (fun a => a.id) := (List.nodup_cons.1 hnd2).1
      intro x hx hpx
      rw [herase] at hx
      have hxid : x.id = account_id := by simpa using hpx
      rcases List.mem_append.1 hx with hx1 | hx2
      · exact hl₁ x hx1 hpx
      · exact hcnot (hcid ▸ hxid ▸ List.mem_map_of_mem (fun a => a.id) hx2)
    refine ⟨by rw [hdel], ?_, by rw [hdel], ?_⟩
    · rw [hdel]
      simp only [get_account_by_id]
      rw [List.find?_eq_none]
      exact herased
    · intro b
      rw [hdel]
      constructor
      · intro hb
        exact ⟨List.mem_of_mem_eraseP hb, by simpa using herased b hb⟩
      · rintro ⟨hb, hbid⟩
        exact (List.mem_eraseP_of_neg (by simpa using hbid)).2 hb

/-- Witness for C2: deleting the referenced concrete account is refused with
the store unchanged. -/
theorem delete_account_spec_witness :
    delete_account storeAB "ACC-20250101120000" = (false, storeAB) :=
  (delete_account_spec storeAB "ACC-20250101120000" (by decide)).2.1
    ⟨demA, by decide, by decide⟩

/-! ### C4: generated account id and audit stamps -/

/-- C4: every account creation that returns a record returns a non-empty id
distinct from the id of every account in the store — in particular from every
previously created account still stored, a creation at the same timestamp
granularity included, because the `accounts.id` primary key makes the
colliding insert fail at commit and return nothing — and the audit fields
carry `added_on = updated_on = today` and
`added_by = last_updated_by = user_id`. -/
theorem create_account_id_audit (db : Store) (input : AccountCreate)
    (user_id ts : String) (today : Date) (parseDate : String → Option Date)
    (a : AccountModel) (db2 : Store)
    (hres : create_account db input user_id ts today parseDate = (.ok a, db2)) :
    a.id ≠ "" ∧ a.id ∉ db.accounts.map (fun x => x.id) ∧
    a.added_on = today ∧ a.updated_on = today ∧
    a.added_by = user_id ∧ a.last_updated_by = user_id := by
  simp only [create_account] at hres
  split at hres
  · rename_i rsd psd ped h1 h2 h3
    split at hres
    · simp at hres
    · rename_i hdup
      rw [Prod.mk.injEq] at hres
      obtain ⟨hA, hS⟩ := hres
      injection hA with hA
      subst hA
      refine ⟨?_, ?_, rfl, rfl, rfl, rfl⟩
      · intro hcontra
        have hid : ("ACC-" ++ ts) = "" := hcontra
        have hlen : ("ACC-" ++ ts).length = 0 := by rw [hid]; rfl
        rw [String.length_append] at hlen
        have h4 : "ACC-".length = 4 := rfl
        omega
      · intro hmem
        obtain ⟨x, hx, hxid⟩ := List.mem_map.1 hmem
        exact hdup (List.any_eq_true.2 ⟨x, hx, by simp [hxid]⟩)
  · simp at hres

/-- Witness for C4 at a concrete store and timestamp. -/
theorem create_account_id_audit_witness :
    accB.id ≠ "" ∧ accB.id ∉ storeAB.accounts.map (fun x => x.id) ∧
    accB.added_on = 9 ∧ accB.updated_on = 9 ∧
    accB.added_by = "bob" ∧ accB.last_updated_by = "bob" :=
  create_account_id_audit storeAB accInputA "bob" "20250101130000" 9 noParse accB storeAB2
    (by rfl)

/-! ### C8: search semantics -/

theorem matchesAt_iff (p s : List Char) : matchesAt p s = true ↔ ∃ t, s = p ++ t := by
  induction p generalizing s with
  | nil => simp [matchesAt]
  | cons a ps ih =>
    cases s with
    | nil => simp [matchesAt]
    | cons c cs =>
      rw [show matchesAt (a :: ps) (c :: cs) = (a == c && matchesAt ps cs) from rfl]
      rw [Bool.and_eq_true, beq_iff_eq, ih]
      constructor
      · rintro ⟨rfl, t, rfl⟩
        exact ⟨t, rfl⟩
      · rintro ⟨t, ht⟩
        rw [List.cons_append] at ht
        injection ht with h1 h2
        exact ⟨h1.symm, t, h2⟩

theorem listContains_iff (s pat : List Char) :
    listContains s pat = true ↔ ∃ u v, s = u ++ pat ++ v := by
  induction s with
  | nil =>
    simp only [listContains, matchesAt_iff]
    constructor
    · rintro ⟨t, ht⟩
      exact ⟨[], t, ht⟩
    · rintro ⟨u, v, huv⟩
      rcases List.append_eq_nil.1 (List.append_eq_nil.1 huv.symm).1 with ⟨rfl, rfl⟩
      exact ⟨v, by simpa using huv⟩
  | cons c cs ih =>
    simp only [listContains, Bool.or_eq_true, matchesAt_iff, ih]
    constructor
    · rintro (⟨t, ht⟩ | ⟨u, v, huv⟩)
      · exact ⟨[], t, by simpa using ht⟩
      · exact ⟨c :: u, v, by rw [huv]; rfl⟩
    · rintro ⟨u, v, huv⟩
      cases u with
      | nil => exact Or.inl ⟨v, by simpa using huv⟩
      | cons x us =>
        rw [List.cons_append, List.cons_append] at huv
        injection huv with h1 h2
        exact Or.inr ⟨us, v, by rw [h2, List.append_assoc]⟩

theorem litSubstr_iff (s q : String) : litSubstr s q = true ↔ OccursIn q s :=
  listContains_iff s.data q.data

theorem likeMatch_iff (p s : List Char) : likeMatch p s = true ↔ LikeSem p s := by
  induction p generalizing s with
  | nil => simp [likeMatch, LikeSem, List.isEmpty_iff]
  | cons hd ps ih =>
    by_cases h1 : hd = '%'
    · subst h1
      have hM : likeMatch ('%' :: ps) s = s.tails.any (fun t => likeMatch ps t) := by
        simp [likeMatch]
      have hL : LikeSem ('%' :: ps) s ↔ ∃ s1 s2, s = s1 ++ s2 ∧ LikeSem ps s2 := by
        simp [LikeSem]
      rw [hM, List.any_eq_true, hL]
      constructor
      · rintro ⟨t, ht, hm⟩
        obtain ⟨s1, hs1⟩ := (List.mem_tails t s).1 ht
        exact ⟨s1, t, hs1.symm, (ih t).1 hm⟩
      · rintro ⟨s1, s2, rfl, hsem⟩
        exact ⟨s2, (List.mem_tails s2 (s1 ++ s2)).2 ⟨s1, rfl⟩, (ih s2).2 hsem⟩
    · have hM : likeMatch (hd :: ps) s = (match s with
          | [] => false
          | c :: cs => (if hd = '_' then true else likeCharEq hd c) && likeMatch ps cs) := by
        simp [likeMatch, h1]
      have hL : LikeSem (hd :: ps) s ↔
          ∃ c cs, s = c :: cs ∧ (hd = '_' ∨ likeCharEq hd c = true) ∧ LikeSem ps cs := by
        simp [LikeSem, h1]
      rw [hM, hL]
      cases s with
      | nil => simp
      | cons c cs =>
        by_cases h2 : hd = '_'
        · simp only [h2, hM, hL]
          simp [ih cs]
          constructor
          · intro hsem
            exact ⟨c, cs, ⟨rfl, rfl⟩, hsem⟩
          · rintro ⟨c1, cs1, ⟨rfl, rfl⟩, hsem⟩
            exact hsem
        · simp [h2, ih cs, Bool.and_eq_true]
          constructor
          · rintro ⟨hc, hsem⟩
            exact ⟨c, cs, ⟨rfl, rfl⟩, hc, hsem⟩
          · rintro ⟨c1, cs1, ⟨rfl, rfl⟩, hc, hsem⟩
            exact ⟨hc, hsem⟩

/-- C8 counterexample: `search` with query `"eng"` returns the account whose
`client` is `"ENG"` — SQLite's `LIKE` matches ASCII letters case-insensitively
— although `"eng"` is not a case-sensitive substring of any of the four
searched fields, refuting the claimed case-sensitive-substring semantics. -/
theorem search_like_counterexample :
    search storeENG "eng" "accounts" = .ok (.accounts [accENG]) ∧
    ¬ OccursIn "eng" accENG.client ∧ ¬ OccursIn "eng" accENG.project ∧
    ¬ OccursIn "eng" accENG.vertical ∧ ¬ OccursIn "eng" accENG.opportunity_status := by
  refine ⟨rfl, ?_, ?_, ?_, ?_⟩ <;>
    exact fun h => absurd ((litSubstr_iff _ _).2 h) (by decide)

/-- C8 (amended): `search` over `"accounts"` returns exactly the accounts
where the pattern `'%' ++ query ++ '%'` LIKE-matches `client`, `project`,
`vertical` or `opportunity_status`, and over `"demands"` exactly the demands
where it LIKE-matches `role`, `project`, `location` or `status` — unanchored
matching in which `%`/`_` inside the query act as wildcards and ASCII letters
compare case-insensitively; for wildcard-free queries this is unanchored
substring matching up to ASCII case. -/
theorem search_like_spec (db : Store) (q : String) :
    (∃ l, search db q "accounts" = .ok (.accounts l) ∧
      ∀ a : AccountModel, a ∈ l ↔ a ∈ db.accounts ∧
        (LikeSem ("%" ++ q ++ "%").data a.client.data ∨
         LikeSem ("%" ++ q ++ "%").data a.project.data ∨
         LikeSem ("%" ++ q ++ "%").data a.vertical.data ∨
         LikeSem ("%" ++ q ++ "%").data a.opportunity_status.data)) ∧
    (∃ l, search db q "demands" = .ok (.demands l) ∧
      ∀ d : DemandModel, d ∈ l ↔ d ∈ db.demands ∧
        (LikeSem ("%" ++ q ++ "%").data d.role.data ∨
         LikeSem ("%" ++ q ++ "%").data d.project.data ∨
         LikeSem ("%" ++ q ++ "%").data d.location.data ∨
         LikeSem ("%" ++ q ++ "%").data d.status.data)) := by
  constructor
  · refine ⟨_, rfl, ?_⟩
    intro a
    rw [List.mem_filter]
    simp [sqlContains, likeMatch_iff, or_assoc]
  · refine ⟨_, rfl, ?_⟩
    intro d
    rw [List.mem_filter]
    simp [sqlContains, likeMatch_iff, or_assoc]

/-! ### C3: clone correctness -/

theorem repr_inj_lt10 : ∀ i j : Fin 10, Nat.repr i.val = Nat.repr j.val → i.val = j.val := by
  decide

theorem cloneId_inj (t1 t2 : String) (i j : Nat) (h1 : t1.length = 14) (h2 : t2.length = 14)
    (hi : i < 10) (hj : j < 10)
    (h : "DEM-CLONE-" ++ t1 ++ "-" ++ Nat.repr i = "DEM-CLONE-" ++ t2 ++ "-" ++ Nat.repr j) :
    i = j := by
  have hd := congrArg String.data h
  simp only [String.data_append, List.append_assoc] at hd
  have hd2 : t1.data ++ ("-".data ++ (Nat.repr i).data)
      = t2.data ++ ("-".data ++ (Nat.repr j).data) := List.append_cancel_left hd
  have hlen : t1.data.length = t2.data.length := by
    have e1 : t1.data.length = 14 := h1
    have e2 : t2.data.length = 14 := h2
    rw [e1, e2]
  obtain ⟨-, hr⟩ := List.append_inj hd2 hlen
  have hr2 : (Nat.repr i).data = (Nat.repr j).data := List.append_cancel_left hr
  have hrs : Nat.repr i = Nat.repr j := congrArg String.mk hr2
  exact repr_inj_lt10 ⟨i, hi⟩ ⟨j, hj⟩ hrs

/-- C3: cloning an existing demand `count ∈ [1,10]` times (with the clock's
fixed 14-character `%Y%m%d%H%M%S` output) produces exactly `count` clones with
pairwise-distinct ids, listed in creation order (`clone i` carries the id
built from its ordinal `i`); every clone copies all the source's business
fields and stamps all four audit fields from the actor and current date; and
the store afterwards is the old demand list (source untouched) plus the
clones. -/
theorem clone_demand_spec (db : Store) (demand_id : String) (count : Nat)
    (user_id : String) (ts : Nat → String) (today : Date) (src : DemandModel)
    (clones : List DemandModel) (db2 : Store)
    (hsrc : get_demand_by_id db demand_id = some src)
    (hcount : 1 ≤ count ∧ count ≤ 10)
    (hts : ∀ i, i < count → (ts i).length = 14)
    (hres : clone_demand db demand_id count user_id ts today = (.ok clones, db2)) :
    clones.length = count ∧
    (clones.map (fun c => c.id)).Nodup ∧
    (∀ i, i < count → (clones[i]?.map (fun c => c.id))
        = some ("DEM-CLONE-" ++ ts i ++ "-" ++ Nat.repr i)) ∧
    (∀ c ∈ clones,
      c.account_id = src.account_id ∧ c.project = src.project ∧ c.role = src.role ∧
      c.role_code = src.role_code ∧ c.location = src.location ∧ c.revised = src.revised ∧
      c.original_start_date = src.original_start_date ∧
      c.allocation_end_date = src.allocation_end_date ∧
      c.allocation_percentage = src.allocation_percentage ∧
      c.probability = src.probability ∧ c.status = src.status ∧
      c.resource_mapped = src.resource_mapped ∧ c.comment = src.comment ∧
      c.start_month = src.start_month ∧
      c.last_updated_by = user_id ∧ c.added_by = user_id ∧
      c.updated_on = today ∧ c.added_on = today) ∧
    db2.demands = db.demands ++ clones ∧
    src ∈ db2.demands := by
  simp only [get_demand_by_id] at hsrc
  simp only [clone_demand, hsrc] at hres
  rw [Prod.mk.injEq] at hres
  obtain ⟨hC, hS⟩ := hres
  injection hC with hC
  subst hC
  subst hS
  refine ⟨by simp, ?_, ?_, ?_, rfl, ?_⟩
  · rw [List.map_map]
    refine List.Nodup.map_on ?_ (List.nodup_range count)
    intro x hx y hy hxy
    rw [List.mem_range] at hx hy
    exact cloneId_inj (ts x) (ts y) x y (hts x hx) (hts y hy)
      (lt_of_lt_of_le hx hcount.2) (lt_of_lt_of_le hy hcount.2) hxy
  · intro i hi
    rw [List.getElem?_map, List.getElem?_range hi]
    rfl
  · intro c hc
    obtain ⟨i, hi, rfl⟩ := List.mem_map.1 hc
    exact ⟨rfl, rfl, rfl, rfl, rfl, rfl, rfl, rfl, rfl, rfl, rfl, rfl, rfl, rfl,
      rfl, rfl, rfl, rfl⟩
  · exact List.mem_append.2 (Or.inl (List.mem_of_find?_eq_some hsrc))

/-- Witness for C3: cloning the concrete demand twice. -/
theorem clone_demand_spec_witness :
    [demClone0, demClone1].length = 2 ∧
    ([demClone0, demClone1].map (fun c => c.id)).Nodup ∧
    demClone0.account_id = demA.account_id := by
  have h := clone_demand_spec storeAB "DEM-20250101120500" 2 "bob" cloneTs 9 demA
    [demClone0, demClone1] storeClones (by rfl) (by decide) (fun i _ => rfl) (by rfl)
  exact ⟨h.1, h.2.1, (h.2.2.2.1 demClone0 (by decide)).1⟩

/-! ### C1: referential integrity is preserved by every operation -/

theorem refint_create_account (db : Store) (input : AccountCreate) (user_id ts : String)
    (today : Date) (parseDate : String → Option Date) (h : RefIntegrity db) :
    RefIntegrity (create_account db input user_id ts today parseDate).2 := by
  simp only [create_account]
  split
  · split
    · exact h
    · intro d hd
      rw [List.map_append]
      exact List.mem_append_left _ (h d hd)
  · exact h

theorem refint_replace_account (db : Store) (account_id : String) (a2 : AccountModel)
    (h : RefIntegrity db) (ha2 : a2.id = account_id) :
    RefIntegrity
      { db with accounts := replaceFirst db.accounts (fun x => x.id == account_id) a2 } := by
  intro d hd
  have hd' : d ∈ db.demands := hd
  show d.account_id ∈ (replaceFirst db.accounts (fun x => x.id == account_id) a2).map
    (fun x => x.id)
  rw [@map_replaceFirst AccountModel String db.accounts (fun x => x.id == account_id) a2
    (fun x => x.id) (fun x hx hpx => by
      have hxx : x.id = account_id := by simpa using hpx
      show a2.id = x.id
      rw [ha2, hxx])]
  exact h d hd'

theorem refint_replace_demand (db : Store) (demand_id : String) (d2 : DemandModel)
    (h : RefIntegrity db)
    (hd2 : d2.account_id ∈ db.accounts.map (fun a => a.id)) :
    RefIntegrity
      { db with demands := replaceFirst db.demands (fun x => x.id == demand_id) d2 } := by
  intro x hx
  have hx' : x ∈ replaceFirst db.demands (fun y => y.id == demand_id) d2 := hx
  rcases mem_replaceFirst hx' with rfl | hx2
  · exact hd2
  · exact h x hx2

theorem refint_update_account (db : Store) (account_id : String) (u : AccountUpdate)
    (user_id : String) (today : Date) (parseDate : String → Option Date)
    (h : RefIntegrity db) :
    RefIntegrity (update_account db account_id u user_id today parseDate).2 := by
  simp only [update_account]
  split
  · exact h
  · rename_i a heq
    split
    · exact refint_replace_account db account_id _ h (by simpa using List.find?_some heq)
    · exact h

theorem refint_delete_account (db : Store) (account_id : String) (h : RefIntegrity db) :
    RefIntegrity (delete_account db account_id).2 := by
  unfold delete_account
  split
  · exact h
  · rename_i a heq
    split
    · exact h
    · rename_i hlen
      intro d hd
      have hdne : d.account_id ≠ account_id := by
        intro hcc
        have hmem : d ∈ db.demands.filter (fun x => x.account_id == account_id) :=
          List.mem_filter.2 ⟨hd, by simp [hcc]⟩
        have hpos := List.length_pos.2 (List.ne_nil_of_mem hmem)
        omega
      obtain ⟨x, hx, hxid⟩ := List.mem_map.1 (h d hd)
      exact List.mem_map.2 ⟨x, (List.mem_eraseP_of_neg (by simp [hxid, hdne])).2 hx, hxid⟩

theorem refint_create_demand (db : Store) (input : DemandCreate) (user_id ts : String)
    (today : Date) (parseDate : String → Option Date) (h : RefIntegrity db) :
    RefIntegrity (create_demand db input user_id ts today parseDate).2 := by
  simp only [create_demand]
  split
  · exact h
  · rename_i a heq
    split
    · intro d hd
      rcases List.mem_append.1 hd with hd | hd
      · exact h d hd
      · rcases List.mem_singleton.1 hd with rfl
        exact List.mem_map.2 ⟨a, List.mem_of_find?_eq_some heq, by simpa using List.find?_some heq⟩
    · exact h

theorem refint_update_demand_apply (db : Store) (demand_id : String) (d : DemandModel)
    (u : DemandUpdate) (user_id : String) (today : Date)
    (parseDate : String → Option Date) (h : RefIntegrity db) (hd : d ∈ db.demands)
    (hacc : ∀ aid, u.account_id = some aid → aid ∈ db.accounts.map (fun a => a.id)) :
    RefIntegrity (update_demand.update_demand_apply db demand_id d u user_id today parseDate).2 := by
  simp only [update_demand.update_demand_apply]
  split
  · refine refint_replace_demand db demand_id _ h ?_
    cases hu : u.account_id with
    | none => simpa [hu] using h d hd
    | some aid => simpa [hu] using hacc aid hu
  · exact h

theorem refint_update_demand (db : Store) (demand_id : String) (u : DemandUpdate)
    (user_id : String) (today : Date) (parseDate : String → Option Date)
    (h : RefIntegrity db) :
    RefIntegrity (update_demand db demand_id u user_id today parseDate).2 := by
  simp only [update_demand]
  split
  · exact h
  · rename_i d heq
    have hd : d ∈ db.demands := List.mem_of_find?_eq_some heq
    split
    · rename_i aid hu
      split
      · exact h
      · rename_i a2 heq2
        refine refint_update_demand_apply db demand_id d u user_id today parseDate h hd ?_
        intro aid' haid'
        have : aid' = aid := by rw [hu] at haid'; exact (Option.some.injEq _ _ ▸ haid').symm
        subst this
        exact List.mem_map.2 ⟨a2, List.mem_of_find?_eq_some heq2, by simpa using List.find?_some heq2⟩
    · rename_i hu
      refine refint_update_demand_apply db demand_id d u user_id today parseDate h hd ?_
      intro aid' haid'
      rw [hu] at haid'
      cases haid'

theorem refint_delete_demand (db : Store) (demand_id : String) (h : RefIntegrity db) :
    RefIntegrity (delete_demand db demand_id).2 := by
  unfold delete_demand
  split
  · exact h
  · intro d hd
    exact h d (List.mem_of_mem_eraseP hd)

theorem refint_clone_demand (db : Store) (demand_id : String) (count : Nat)
    (user_id : String) (ts : Nat → String) (today : Date) (h : RefIntegrity db) :
    RefIntegrity (clone_demand db demand_id count user_id ts today).2 := by
  simp only [clone_demand]
  split
  · exact h
  · rename_i src heq
    intro d hd
    rcases List.mem_append.1 hd with hd | hd
    · exact h d hd
    · obtain ⟨i, hi, rfl⟩ := List.mem_map.1 hd
      exact h src (List.mem_of_find?_eq_some heq)

/-- C1: every store state reachable from the empty database through the
service operations satisfies referential integrity — each demand's
`account_id` is the id of an account present in the store. -/
theorem reachable_refIntegrity (db : Store) (h : Reachable db) : RefIntegrity db := by
  induction h with
  | empty => intro d hd; cases hd
  | stepCreateAccount db input user_id ts today parseDate _ ih =>
    exact refint_create_account db input user_id ts today parseDate ih
  | stepUpdateAccount db account_id u user_id today parseDate _ ih =>
    exact refint_update_account db account_id u user_id today parseDate ih
  | stepDeleteAccount db account_id _ ih =>
    exact refint_delete_account db account_id ih
  | stepCreateDemand db input user_id ts today parseDate _ ih =>
    exact refint_create_demand db input user_id ts today parseDate ih
  | stepUpdateDemand db demand_id u user_id today parseDate _ ih =>
    exact refint_update_demand db demand_id u user_id today parseDate ih
  | stepDeleteDemand db demand_id _ ih =>
    exact refint_delete_demand db demand_id ih
  | stepCloneDemand db demand_id count user_id ts today _ ih =>
    exact refint_clone_demand db demand_id count user_id ts today ih

/-- Witness for C1: referential integrity at a concrete reachable store. -/
theorem reachable_refIntegrity_witness :
    RefIntegrity (create_account emptyStore accInputA "alice" "20250101120000" 5 noParse).2 :=
  reachable_refIntegrity _
    (Reachable.stepCreateAccount emptyStore accInputA "alice" "20250101120000" 5 noParse
      Reachable.empty)

end DemandFlow
